import Mathlib

/-!
Verification of the build orchestration and live-reload coordination layer of
the fivem-twore repository.  Each definition is a shallow embedding of a
function or code region of the repository sources:

* `src/scripts/moveBuiltResources.ts` — debounce helper, `isBuilding` guard,
  watcher callbacks, `rebuildPlugin`, `restartResource`, resource move loop;
* `src/scripts/fxmanifest.js` — `formatArrayBlock`, `formatKeyValuePairs`,
  `createFxmanifest`, and the `CoreManager` lifecycle HTTP client;
* `src/core/server/pluginValidator.ts` — `validatePluginStructure`,
  `validateAllPlugins`;
* the manifest loader (`validateManifest` over an Ajv instance constructed
  with `allErrors: true`);
* `src/scripts/buildPluginScripts.ts` — entry-point resolution.

Machine integers do not occur in the modelled code paths; times and counts are
natural numbers.  JavaScript `Map` objects are modelled as association lists,
falsy string values as the empty string, and `undefined`/missing object fields
as `Option`.
-/

namespace Twore

/-! ### String toolkit

The JavaScript sources assemble report strings with `+=` and
`Array.prototype.join`.  `joinSep` mirrors `join`, and `strContains` states
that one string occurs inside another (used to state that an aggregated error
message mentions a particular entry). -/

/-- Mirror of JavaScript `Array.prototype.join(sep)`. -/
def joinSep (sep : String) : List String → String
  | [] => ""
  | [x] => x
  | x :: y :: xs => x ++ sep ++ joinSep sep (y :: xs)

/-- The string `sub` occurs contiguously inside `s`. -/
def strContains (s sub : String) : Prop :=
  ∃ l r : List Char, s.data = l ++ sub.data ++ r

/-! ### Debounced task scheduler, single key, with time

Embedding of `debounce` in `src/scripts/moveBuiltResources.ts`:

```
const timers = new Map<string, NodeJS.Timeout>();
function debounce(key, fn, delay = 100) {
  const existing = timers.get(key);
  if (existing) clearTimeout(existing);
  const t = setTimeout(async () => { timers.delete(key); ... await fn(); }, delay);
  timers.set(key, t);
}
```

For a single key the relevant state is the deadline of the live timer (if
any) and the times at which the scheduled function was invoked.  Events for
the key are processed in time order; a pending timer whose deadline has been
reached before the next event fires before that event is handled. -/

/-- Debounce state for one scheduler key: deadline of the pending timer and
the times at which the scheduled function has been invoked. -/
structure DebounceState where
  pending : Option Nat
  fired : List Nat
deriving DecidableEq

/-- The runtime fires the pending timer if its deadline has been reached by
time `t` (the timer callback deletes the map entry and invokes `fn`). -/
def fireDue (t : Nat) (s : DebounceState) : DebounceState :=
  match s.pending with
  | some d => if d ≤ t then { pending := none, fired := s.fired ++ [d] } else s
  | none => s

/-- A filesystem event for the key at time `t`: any timer already due has
fired; `debounce` then clears the pending timer (`clearTimeout`) and
schedules a fresh one for `t + delay` (`setTimeout`). -/
def debounceEvent (delay t : Nat) (s : DebounceState) : DebounceState :=
  let s' := fireDue t s
  { s' with pending := some (t + delay) }

/-- After the last event, the surviving timer (if any) eventually fires. -/
def flushTimer (s : DebounceState) : DebounceState :=
  match s.pending with
  | some d => { pending := none, fired := s.fired ++ [d] }
  | none => s

/-- Process a time-ordered list of filesystem events for one key and let the
final timer fire. -/
def debounceRun (delay : Nat) (events : List Nat) : DebounceState :=
  flushTimer (events.foldl (fun s t => debounceEvent delay t s) ⟨none, []⟩)

/-- Every consecutive pair of event times is closer than `delay` (a burst
inside one delay window). -/
def gapsWithin (delay : Nat) : List Nat → Bool
  | t₁ :: t₂ :: ts => decide (t₂ < t₁ + delay) && gapsWithin delay (t₂ :: ts)
  | _ => true

/-- Every consecutive pair of event times is separated by more than `delay`. -/
def gapsBeyond (delay : Nat) : List Nat → Bool
  | t₁ :: t₂ :: ts => decide (t₁ + delay < t₂) && gapsBeyond delay (t₂ :: ts)
  | _ => true

/-! ### The watcher event loop and the global `isBuilding` guard

Embedding of the watcher wiring in `src/scripts/moveBuiltResources.ts`:

```
let isBuilding = false;
chokidar.watch([...]).on('all', (event, file) => {
  if (isBuilding) return;
  const pluginDir = pluginDirs.find(...);
  if (pluginDir) {
    debounce(pluginDir, async () => {
      isBuilding = true;
      try { await rebuildPlugin(pluginDir); } finally { isBuilding = false; }
    });
  }
});
```

The process is a single-threaded event loop; the atomic steps are: a watcher
callback runs (`fsEvent`), a debounce timer callback runs and the debounced
function executes up to its first `await` (`timerFire`), and an awaited
rebuild completes, running the `finally` block (`buildDone`).  Timer
deadlines are left implicit: an action list is admissible when every
`timerFire` names a live timer and every `buildDone` names a build in
flight (`actsValid`). -/

/-- Observable build events: a build body for a key begins executing, or
finishes (success or failure). -/
inductive TraceEvt
  | start (k : String)
  | finish (k : String)
deriving DecidableEq

/-- Event-loop state: the global `isBuilding` flag, the keys with a live
debounce timer (the `timers` map), the keys whose build body has started but
not completed, and the observable trace. -/
structure LoopState where
  isBuilding : Bool
  timers : List String
  inFlight : List String
  trace : List TraceEvt
deriving DecidableEq

/-- Atomic event-loop steps. -/
inductive WatchAct
  | fsEvent (k : String)
  | timerFire (k : String)
  | buildDone (k : String)
deriving DecidableEq

/-- A watcher callback for key `k`: dropped when `isBuilding` is set,
otherwise `debounce` replaces any pending timer for `k` with a fresh one. -/
def fsEventStep (k : String) (s : LoopState) : LoopState :=
  if s.isBuilding then s
  else { s with timers := k :: s.timers.filter (fun x => x ≠ k) }

/-- The debounce timer for `k` fires: the callback deletes the map entry and
invokes the debounced function, whose first synchronous statements set
`isBuilding := true` and launch the rebuild (which suspends at its first
`await`).  No check of `isBuilding` occurs here — the guard is only read in
the watcher callbacks. -/
def timerFireStep (k : String) (s : LoopState) : LoopState :=
  if s.timers.contains k then
    { s with
      timers := s.timers.filter (fun x => x ≠ k)
      isBuilding := true
      inFlight := k :: s.inFlight
      trace := s.trace ++ [TraceEvt.start k] }
  else s

/-- The awaited rebuild for `k` completes; the `finally` block clears
`isBuilding`. -/
def buildDoneStep (k : String) (s : LoopState) : LoopState :=
  if s.inFlight.contains k then
    { s with
      inFlight := s.inFlight.filter (fun x => x ≠ k)
      isBuilding := false
      trace := s.trace ++ [TraceEvt.finish k] }
  else s

/-- Dispatch one atomic step. -/
def loopStep (s : LoopState) : WatchAct → LoopState
  | .fsEvent k => fsEventStep k s
  | .timerFire k => timerFireStep k s
  | .buildDone k => buildDoneStep k s

/-- Run the event loop over a list of atomic steps. -/
def runLoop (acts : List WatchAct) (s : LoopState) : LoopState :=
  acts.foldl loopStep s

/-- Initial state: no build in progress, no timers, empty trace. -/
def loopInit : LoopState := ⟨false, [], [], []⟩

/-- An action list is admissible when every timer that fires is live and
every build that completes is in flight. -/
def actsValid : List WatchAct → LoopState → Bool
  | [], _ => true
  | a :: r, s =>
    (match a with
     | .fsEvent _ => true
     | .timerFire k => s.timers.contains k
     | .buildDone k => s.inFlight.contains k) && actsValid r (loopStep s a)

/-- Running build-body count along a trace never exceeds one when builds are
serialized: every `start` happens with no build running. -/
def serializedAux : Nat → List TraceEvt → Bool
  | _, [] => true
  | n, TraceEvt.start _ :: r => decide (n = 0) && serializedAux (n + 1) r
  | n, TraceEvt.finish _ :: r => serializedAux (n - 1) r

/-- A trace is serialized when at most one build body executes at any
moment. -/
def serializedTrace (tr : List TraceEvt) : Bool :=
  serializedAux 0 tr

/-- Two keys receive watch events inside each other's delay window; both
timers then fire, the second while the first build is still awaited. -/
def demoActs : List WatchAct :=
  [WatchAct.fsEvent "pluginA", WatchAct.fsEvent "pluginB",
   WatchAct.timerFire "pluginA", WatchAct.timerFire "pluginB"]

/-! ### Build-output promotion

Embedding of the filesystem operations `rebuildPlugin` performs on the
canonical destination directory `dist/<rel>`
(`src/scripts/moveBuiltResources.ts`):

```
await rm(dest, { recursive: true, force: true });
await mkdir(dest, { recursive: true });
await exec(...build...);            // writes to <pluginDir>/dist, not dest
const files = await readdir(srcDist);
for (const file of files) {
  await rename(path.join(srcDist, file), path.join(dest, file));
}
```

and of the per-resource move loop in the `moveBuiltResources` script:

```
await rm(destPath, { recursive: true, force: true });
await mkdir(path.dirname(destPath), { recursive: true });
await rename(srcPath, destPath);
```

The destination directory is modelled as a list of entries tagged with the
build cycle they come from; a concurrent watcher can observe the directory
before, between, and after the awaited operations. -/

/-- Whether a file in the observed output directory belongs to the previous
build (`stale`) or to the current one (`fresh`). -/
inductive FileVer
  | stale
  | fresh
deriving DecidableEq

/-- Contents of the watched destination directory. -/
abbrev DirState : Type := List (String × FileVer)

/-- The filesystem operations the promotion code applies to the watched
destination directory. -/
inductive MoveOp
  | rmDestRecursive
  | mkdirDest
  | mkdirDestParent
  | renameIntoDest (name : String)
  | renameDirIntoDest (files : List String)

/-- Effect of one operation on the destination directory contents. -/
def applyMoveOp (st : DirState) : MoveOp → DirState
  | .rmDestRecursive => []
  | .mkdirDest => st
  | .mkdirDestParent => st
  | .renameIntoDest n => st ++ [(n, FileVer.fresh)]
  | .renameDirIntoDest fs => fs.map (fun n => (n, FileVer.fresh))

/-- Operation sequence of `rebuildPlugin` on `dest`, for a build producing
`builtFiles` in the staging directory. -/
def rebuildPluginMoveOps (builtFiles : List String) : List MoveOp :=
  MoveOp.rmDestRecursive :: MoveOp.mkdirDest :: builtFiles.map MoveOp.renameIntoDest

/-- Operation sequence of the `moveBuiltResources` script on one resource
directory under `resources/[GENERATED]`. -/
def moveBuiltResourcesOps (builtFiles : List String) : List MoveOp :=
  [MoveOp.rmDestRecursive, MoveOp.mkdirDestParent, MoveOp.renameDirIntoDest builtFiles]

/-- All directory states a concurrent watcher can observe: the state before
the first operation and the state after each awaited operation. -/
def observedStates (oldFiles : List String) (ops : List MoveOp) : List DirState :=
  ops.scanl applyMoveOp (oldFiles.map (fun n => (n, FileVer.stale)))

/-- A directory state mixes output of two build cycles when it holds both a
stale file and a fresh file. -/
def hasMixedVersions (st : DirState) : Bool :=
  st.any (fun p => decide (p.2 = FileVer.stale)) &&
  st.any (fun p => decide (p.2 = FileVer.fresh))

/-! ### Resource lifecycle client and orchestrator policy

Embedding of `CoreManager` (`src/scripts/fxmanifest.js`, class body) and of
the orchestrator's `restartResource` in `src/scripts/moveBuiltResources.ts`.
The HTTP layer (axios) is modelled by the classified outcome of the
`GET /resources` request, exactly the cases `handleError` distinguishes. -/

/-- Parsed body of a 2xx `GET /resources` response. -/
structure ResourceListResponse where
  success : Bool
  resources : List String
  count : Nat
deriving DecidableEq

/-- Outcome of an HTTP request as classified by `handleError`: a 2xx
response with parsed body, a non-2xx response (axios throws with
`error.response` set), no response received (`error.request` set), or a
request-construction error. -/
inductive HttpOutcome (α : Type)
  | resp (body : α)
  | non2xx (status : Nat) (body : String)
  | noResponse
  | setupError (msg : String)
deriving DecidableEq

/-- `CoreManager.getResources`: returns the resource list of a successful
response; on `success: false` it throws, and every thrown error (including
all transport failures) is caught by the surrounding `try`, logged via
`handleError`, and turned into `[]`. -/
def getResources (o : HttpOutcome ResourceListResponse) : List String :=
  match o with
  | .resp r => if r.success then r.resources else []
  | .non2xx _ _ => []
  | .noResponse => []
  | .setupError _ => []

/-- `CoreManager.resourceExists`: membership in `getResources`. -/
def resourceExists (o : HttpOutcome ResourceListResponse) (name : String) : Bool :=
  (getResources o).contains name

/-- Which lifecycle call path the orchestrator takes for a rebuilt
resource. -/
inductive LifecycleAttempt
  | tryStart (n : String)
  | tryRestart (n : String)
deriving DecidableEq

/-- Branch taken by `restartResource` in `moveBuiltResources.ts`: if
`resourceExists` is false the start path runs (`startResource` is invoked),
otherwise the restart path runs (`restartResource` on the client). -/
def restartResourceCall (o : HttpOutcome ResourceListResponse) (name : String) :
    LifecycleAttempt :=
  if resourceExists o name then LifecycleAttempt.tryRestart name
  else LifecycleAttempt.tryStart name

/-- The methods the `CoreManager` class declares
(`src/scripts/fxmanifest.js`, lines 210-360). -/
def coreManagerMethods : List String :=
  ["constructor", "getResources", "restartResource", "restartAllResources",
   "resourceExists", "handleError"]

/-- The client method the orchestrator's start path invokes
(`moveBuiltResources.ts` line 180: `resourceManager.startResource(...)`). -/
def orchestratorStartMethod : String := "startResource"

/-- The `GET /resources` request failed: no 2xx response was obtained. -/
def isFailureOutcome (o : HttpOutcome ResourceListResponse) : Bool :=
  match o with
  | .resp _ => false
  | .non2xx _ _ => true
  | .noResponse => true
  | .setupError _ => true

/-! ### Structural plugin validation

Embedding of `src/core/server/pluginValidator.ts`.  The filesystem facts the
checker consults are captured in `PluginFsView`; the outcome of
`loadManifest` (which parses `plugin.json` and schema-validates it) is the
`manifestLoadError` field. -/

/-- Filesystem facts about one plugin directory: whether `plugin.json`
exists, whether `loadManifest` throws (and with which message), and which
subdirectories exist as directories. -/
structure PluginFsView where
  hasManifest : Bool
  manifestLoadError : Option String
  presentDirs : List String
deriving DecidableEq

/-- The fixed set of required subdirectories. -/
def requiredDirs : List String := ["client", "server", "translations", "html", "types"]

/-- `validatePluginStructure`, instrumented: returns the error list together
with whether `loadManifest` (manifest schema validation) was invoked. -/
def validatePluginStructureT (p : PluginFsView) : List String × Bool :=
  let manifestErrors :=
    if ¬ p.hasManifest then (["Missing plugin.json manifest"], false)
    else
      match p.manifestLoadError with
      | some m => (["Invalid manifest: " ++ m], true)
      | none => ([], true)
  (manifestErrors.1 ++
     (requiredDirs.filter (fun d => ¬ p.presentDirs.contains d)).map
       (fun d => "Missing directory: " ++ d),
   manifestErrors.2)

/-- `validatePluginStructure`: the returned error list (empty = valid). -/
def validatePluginStructure (p : PluginFsView) : List String :=
  (validatePluginStructureT p).1

/-- Whether the structural check invoked manifest schema validation. -/
def manifestValidationInvoked (p : PluginFsView) : Bool :=
  (validatePluginStructureT p).2

/-- The `allErrors` record of `validateAllPlugins`: per-plugin error lists,
keyed by the plugin path relative to the base (paths produced by
`getPluginDirs` are pairwise distinct). -/
def collectPluginErrors (plugins : List (String × PluginFsView)) :
    List (String × List String) :=
  plugins.filterMap (fun pr =>
    let errors := validatePluginStructure pr.2
    if errors.length > 0 then some (pr.1, errors) else none)

/-- Lines `"  - <error>\n"` accumulated by the inner loop of the failure
message construction. -/
def errLines : List String → String
  | [] => ""
  | e :: es => "  - " ++ e ++ "\n" ++ errLines es

/-- Blocks `"- <plugin>:\n"` followed by that plugin's error lines,
accumulated by the outer loop. -/
def pluginBlocks : List (String × List String) → String
  | [] => ""
  | pe :: rest => "- " ++ pe.1 ++ ":\n" ++ errLines pe.2 ++ pluginBlocks rest

/-- The message of the error `validateAllPlugins` throws, built with `+=`
exactly as in the source. -/
def validationFailureMessage (allErrors : List (String × List String)) : String :=
  allErrors.foldl
    (fun msg pe =>
      pe.2.foldl (fun m e => m ++ "  - " ++ e ++ "\n") (msg ++ "- " ++ pe.1 ++ ":\n"))
    "Plugin validation failed:\n"

/-- `validateAllPlugins`: validates every plugin, aggregates the non-empty
error lists, and throws one structured error if any plugin is invalid. -/
def validateAllPlugins (plugins : List (String × PluginFsView)) : Except String Unit :=
  let allErrors := collectPluginErrors plugins
  if allErrors.length > 0 then Except.error (validationFailureMessage allErrors)
  else Except.ok ()

/-! ### Manifest schema validation

Embedding of `validateManifest` over the Ajv instance constructed with
`new Ajv({ allErrors: true })`.  The schema engine itself is an external
black box (spec §1); with `allErrors: true` its documented contract is to
report every violated constraint, so a manifest violating `k` independent
constraints yields a `k`-element `validateFn.errors` list.  `violations`
below is the list of rendered messages of that list. -/

/-- `ajv.errorsText(errors, { separator: '\n' })`: joins all error messages
with the separator. -/
def errorsText (violations : List String) : String :=
  joinSep "\n" violations

/-- `validateManifest`: succeeds when the engine reports no violation,
otherwise throws a single error carrying `errorsText` of all of them. -/
def validateManifest (violations : List String) : Except String Unit :=
  if violations.isEmpty then Except.ok ()
  else Except.error ("Invalid plugin manifest:\n" ++ errorsText violations)

/-! ### Entry-point resolution

Embedding of the `environments` construction in
`src/scripts/buildPluginScripts.ts` (lines 22-62).  A manifest side entry of
`Option (List String)` is `some l` exactly when the corresponding
`exports.<side>` field is a JavaScript array with elements `l`. -/

/-- The `exports` object of a plugin manifest. -/
structure ExportsView where
  client : Option (List String)
  server : Option (List String)
deriving DecidableEq

/-- The filesystem facts consulted: whether the default entry files exist. -/
structure BuildFsView where
  serverIndexExists : Bool
  clientIndexExists : Bool
deriving DecidableEq

/-- One esbuild environment: bundle name and entry points. -/
structure BuildEnv where
  name : String
  entryPoints : List String
deriving DecidableEq

/-- The `environments` array after the two resolution blocks.  The guard
`pluginManifest.exports && Array.isArray(pluginManifest.exports.<side>)`
is `(exportsDef.bind <side>).isSome`. -/
def resolveEnvironments (exportsDef : Option ExportsView) (fs : BuildFsView) :
    List BuildEnv :=
  let serverExports := (exportsDef.bind ExportsView.server).getD []
  let clientExports := (exportsDef.bind ExportsView.client).getD []
  let serverPart :=
    if (exportsDef.bind ExportsView.server).isSome then
      if serverExports.length > 0 then
        [BuildEnv.mk "server" (serverExports.map (fun p => "./" ++ p))]
      else []
    else if fs.serverIndexExists then
      [BuildEnv.mk "server" ["./server/index.ts"]]
    else []
  let clientPart :=
    if (exportsDef.bind ExportsView.client).isSome then
      if clientExports.length > 0 then
        [BuildEnv.mk "client" (clientExports.map (fun p => "./" ++ p))]
      else []
    else if fs.clientIndexExists then
      [BuildEnv.mk "client" ["./client/index.ts"]]
    else []
  serverPart ++ clientPart

/-- Modelled from the spec's words for one side: an explicitly declared
entry-point list takes precedence over any default (its entries become the
build entry points, so a declared empty list yields no bundle); with no
declared list the side's default entry is used exactly when it exists on
disk; with neither, the side is skipped. -/
def specEntryPoints (declared : Option (List String)) (defaultEntry : String)
    (defaultOnDisk : Bool) : Option (List String) :=
  match declared with
  | some l => if l = [] then none else some (l.map (fun p => "./" ++ p))
  | none => if defaultOnDisk then some [defaultEntry] else none

/-- Spec-side resolution of both sides, server first as in the source. -/
def specResolveEnvironments (exportsDef : Option ExportsView) (fs : BuildFsView) :
    List BuildEnv :=
  (match specEntryPoints (exportsDef.bind ExportsView.server) "./server/index.ts"
      fs.serverIndexExists with
   | some eps => [BuildEnv.mk "server" eps]
   | none => []) ++
  (match specEntryPoints (exportsDef.bind ExportsView.client) "./client/index.ts"
      fs.clientIndexExists with
   | some eps => [BuildEnv.mk "client" eps]
   | none => [])

/-! ### Host-manifest (`fxmanifest.lua`) generation

Embedding of `formatArrayBlock`, `formatKeyValuePairs`, and the body of
`createFxmanifest` in `src/scripts/fxmanifest.js` (second variant).  Falsy
string values are modelled by `""`; the merged metadata object
(package.json defaults overridden by the `metadata` argument) is passed as
an association list with pairwise-distinct keys. -/

/-- `formatArrayBlock(name, files)`. -/
def formatArrayBlock (name : String) (files : List String) : String :=
  if files.length = 0 then ""
  else
    name ++ " \x7b\n" ++
      joinSep ",\n"
        (files.map (fun v => if v ≠ "" then "    \x27" ++ v ++ "\x27" else "")) ++
      "\n\x7d\n"

/-- `formatKeyValuePairs(object)`. -/
def formatKeyValuePairs (object : List (String × String)) : String :=
  joinSep "\n"
    ((object.filter (fun kv => kv.2 ≠ "")).map
      (fun kv => kv.1 ++ " \x27" ++ kv.2 ++ "\x27")) ++ "\n"

/-- Arguments of `createFxmanifest` after the package.json/metadata merge. -/
structure FxmanifestArgs where
  fxmanifestPairs : List (String × String)
  shared_scripts : List String
  client_scripts : List String
  server_scripts : List String
  ui_page : Option String
  files : List String
  dependencies : List String
deriving DecidableEq

/-- The output string `createFxmanifest` builds with sequential `+=`. -/
def createFxmanifestOutput (a : FxmanifestArgs) : String :=
  formatKeyValuePairs a.fxmanifestPairs ++
  (if a.shared_scripts.length > 0 then formatArrayBlock "shared_scripts" a.shared_scripts else "") ++
  (if a.client_scripts.length > 0 then formatArrayBlock "client_scripts" a.client_scripts else "") ++
  (if a.server_scripts.length > 0 then formatArrayBlock "server_scripts" a.server_scripts else "") ++
  (match a.ui_page with
   | some u => "ui_page \x27" ++ u ++ "\x27\n"
   | none => "") ++
  (if a.files.length > 0 then formatArrayBlock "files" a.files else "") ++
  (if a.dependencies.length > 0 then formatArrayBlock "dependencies" a.dependencies else "")

/-- Semantics of `writeFile(path, content)`: the file's new contents are
`content`, whatever the prior contents were (the write truncates; no read or
merge of the previous file occurs). -/
def fsWriteFile (priorContent : Option String) (newContent : String) : String :=
  match priorContent with
  | _ => newContent

/-- Contents of `fxmanifest.lua` after `createFxmanifest` runs, as a
function of the prior contents. -/
def fileAfterBuild (prior : Option String) (a : FxmanifestArgs) : String :=
  fsWriteFile prior (createFxmanifestOutput a)

/-! ## Helper lemmas -/

theorem strData_append (a b : String) : (a ++ b).data = a.data ++ b.data := rfl

theorem strContains_refl (s : String) : strContains s s :=
  ⟨[], [], by simp⟩

theorem strContains_append_left (t : String) {s sub : String} (h : strContains s sub) :
    strContains (t ++ s) sub := by
  obtain ⟨l, r, hd⟩ := h
  exact ⟨t.data ++ l, r, by rw [strData_append, hd]; simp⟩

theorem strContains_append_right (t : String) {s sub : String} (h : strContains s sub) :
    strContains (s ++ t) sub := by
  obtain ⟨l, r, hd⟩ := h
  exact ⟨l, r ++ t.data, by rw [strData_append, hd]; simp⟩

theorem strContains_trans {a b c : String} (h₁ : strContains a b) (h₂ : strContains b c) :
    strContains a c := by
  obtain ⟨l, r, hd⟩ := h₁
  obtain ⟨l', r', hd'⟩ := h₂
  exact ⟨l ++ l', r' ++ r, by rw [hd, hd']; simp⟩

theorem strContains_joinSep (sep : String) {m : String} {L : List String} (h : m ∈ L) :
    strContains (joinSep sep L) m := by
  induction L with
  | nil => cases h
  | cons x xs ih =>
    cases xs with
    | nil =>
      rw [List.mem_singleton] at h
      subst h
      exact strContains_refl m
    | cons y ys =>
      rcases List.mem_cons.mp h with rfl | h
      · exact strContains_append_right _ (strContains_append_right _ (strContains_refl m))
      · exact strContains_append_left (x ++ sep) (ih h)

theorem debounceEvent_no_fire (delay t : Nat) {s : DebounceState} {d : Nat}
    (hp : s.pending = some d) (ht : t < d) :
    debounceEvent delay t s = { pending := some (t + delay), fired := s.fired } := by
  have h1 : fireDue t s = s := by
    unfold fireDue
    rw [hp]
    exact if_neg (by omega)
  unfold debounceEvent
  rw [h1]

theorem burst_aux (delay : Nat) (ts : List Nat) :
    ∀ (t₀ : Nat) (f₀ : List Nat),
      gapsWithin delay (t₀ :: ts) = true →
      ∃ tl, ts.foldl (fun s t => debounceEvent delay t s) ⟨some (t₀ + delay), f₀⟩ =
        { pending := some (tl + delay), fired := f₀ } := by
  induction ts with
  | nil => exact fun t₀ f₀ _ => ⟨t₀, rfl⟩
  | cons t₁ ts ih =>
    intro t₀ f₀ h
    simp only [gapsWithin, Bool.and_eq_true, decide_eq_true_eq] at h
    obtain ⟨h₁, h₂⟩ := h
    rw [List.foldl_cons, debounceEvent_no_fire delay t₁ rfl h₁]
    exact ih t₁ f₀ h₂

theorem spaced_aux (delay : Nat) (ts : List Nat) :
    ∀ (t₀ : Nat) (f₀ : List Nat),
      gapsBeyond delay (t₀ :: ts) = true →
      ∃ tl fs, ts.foldl (fun s t => debounceEvent delay t s) ⟨some (t₀ + delay), f₀⟩ =
        { pending := some (tl + delay), fired := f₀ ++ fs } ∧ fs.length = ts.length := by
  induction ts with
  | nil => exact fun t₀ f₀ _ => ⟨t₀, [], by simp, rfl⟩
  | cons t₁ ts ih =>
    intro t₀ f₀ h
    simp only [gapsBeyond, Bool.and_eq_true, decide_eq_true_eq] at h
    obtain ⟨h₁, h₂⟩ := h
    have hfire : fireDue t₁ (⟨some (t₀ + delay), f₀⟩ : DebounceState) =
        ⟨none, f₀ ++ [t₀ + delay]⟩ := by
      unfold fireDue
      exact if_pos (Nat.le_of_lt h₁)
    have hstep : debounceEvent delay t₁ (⟨some (t₀ + delay), f₀⟩ : DebounceState) =
        ⟨some (t₁ + delay), f₀ ++ [t₀ + delay]⟩ := by
      unfold debounceEvent
      rw [hfire]
    rw [List.foldl_cons, hstep]
    obtain ⟨tl, fs, heq, hlen⟩ := ih t₁ (f₀ ++ [t₀ + delay]) h₂
    exact ⟨tl, (t₀ + delay) :: fs, by rw [heq]; simp, by simp [hlen]⟩

theorem loopStep_timers_nodup {s : LoopState} (h : s.timers.Nodup) (a : WatchAct) :
    (loopStep s a).timers.Nodup := by
  cases a with
  | fsEvent k =>
    show (fsEventStep k s).timers.Nodup
    unfold fsEventStep
    split
    · exact h
    · refine List.Nodup.cons ?_ (h.filter _)
      intro hmem
      rw [List.mem_filter] at hmem
      simp at hmem
  | timerFire k =>
    show (timerFireStep k s).timers.Nodup
    unfold timerFireStep
    split
    · exact h.filter _
    · exact h
  | buildDone k =>
    show (buildDoneStep k s).timers.Nodup
    unfold buildDoneStep
    split
    · exact h
    · exact h

theorem runLoop_timers_nodup (acts : List WatchAct) :
    ∀ s : LoopState, s.timers.Nodup → (runLoop acts s).timers.Nodup := by
  induction acts with
  | nil => exact fun _ h => h
  | cons a r ih => exact fun s h => ih _ (loopStep_timers_nodup h a)

/-! ## Claim theorems -/

/-- Claim C4: for every scheduler key there is at most one live debounce
timer at any time (the `timers` map of the watcher loop is duplicate-free in
every reachable state); a new event for a key whose timer is still pending
cancels that timer and restarts the full delay without invoking the
function; N events for the same key inside the delay window produce exactly
one invocation of the scheduled function; and N events each spaced further
apart than the delay produce exactly N invocations. -/
theorem C4_debounce_scheduler (delay : Nat) (events : List Nat) :
    (∀ (t : Nat) (s : DebounceState) (d : Nat), s.pending = some d → t < d →
        debounceEvent delay t s = { pending := some (t + delay), fired := s.fired }) ∧
    (events ≠ [] → gapsWithin delay events = true →
        (debounceRun delay events).fired.length = 1) ∧
    (gapsBeyond delay events = true →
        (debounceRun delay events).fired.length = events.length) ∧
    (∀ acts : List WatchAct, (runLoop acts loopInit).timers.Nodup) := by
  refine ⟨fun t s d hp ht => debounceEvent_no_fire delay t hp ht, ?_, ?_, ?_⟩
  · intro hne hw
    cases events with
    | nil => exact absurd rfl hne
    | cons t₀ ts =>
      obtain ⟨tl, heq⟩ := burst_aux delay ts t₀ [] hw
      unfold debounceRun
      rw [List.foldl_cons]
      have h0 : debounceEvent delay t₀ (⟨none, []⟩ : DebounceState) =
          ⟨some (t₀ + delay), []⟩ := rfl
      rw [h0, heq]
      rfl
  · intro hb
    cases events with
    | nil => rfl
    | cons t₀ ts =>
      obtain ⟨tl, fs, heq, hlen⟩ := spaced_aux delay ts t₀ [] hb
      unfold debounceRun
      rw [List.foldl_cons]
      have h0 : debounceEvent delay t₀ (⟨none, []⟩ : DebounceState) =
          ⟨some (t₀ + delay), []⟩ := rfl
      rw [h0, heq]
      show (fs ++ [tl + delay]).length = ts.length + 1
      simp [hlen]
  · exact fun acts => runLoop_timers_nodup acts loopInit List.nodup_nil

/-- Witness for C4 at concrete inputs: three events inside one 100 ms window
fire once; three events spaced beyond 100 ms fire three times. -/
theorem C4_debounce_scheduler_witness :
    (debounceRun 100 [0, 30, 60]).fired.length = 1 ∧
    (debounceRun 100 [0, 200, 401]).fired.length = 3 :=
  ⟨(C4_debounce_scheduler 100 [0, 30, 60]).2.1 (by decide) (by decide),
   (C4_debounce_scheduler 100 [0, 200, 401]).2.2.1 (by decide)⟩

/-- Claim C1 is false on the code: in the admissible execution `demoActs`,
watch events for two distinct keys arrive before either debounce timer
fires; the timer for the second key then fires while the first build is
still in flight, and its build body starts immediately — the trace holds two
`start` events with no intervening `finish`, so build bodies overlap instead
of being serialized. -/
theorem C1_guard_counterexample :
    actsValid demoActs loopInit = true ∧
    (runLoop demoActs loopInit).trace =
      [TraceEvt.start "pluginA", TraceEvt.start "pluginB"] ∧
    (runLoop demoActs loopInit).inFlight.length = 2 ∧
    serializedTrace (runLoop demoActs loopInit).trace = false := by decide

/-- Claim C1 as amended: while a build is in progress, a watcher event for
any key is dropped without scheduling a timer (the state is unchanged); but
a debounce timer that is already live fires regardless of the guard and its
build body starts immediately, so build bodies are not serialized. -/
theorem C1_guard_drops_events_only (s : LoopState) (k : String)
    (h₁ : s.isBuilding = true) (h₂ : s.timers.contains k = true) :
    fsEventStep k s = s ∧
    (timerFireStep k s).inFlight = k :: s.inFlight ∧
    (timerFireStep k s).trace = s.trace ++ [TraceEvt.start k] := by
  refine ⟨?_, ?_, ?_⟩
  · unfold fsEventStep
    rw [if_pos h₁]
  · unfold timerFireStep
    rw [if_pos h₂]
  · unfold timerFireStep
    rw [if_pos h₂]

/-- Witness for the amended C1 in a state where a build for `pluginA` is in
flight and a timer for `pluginB` is pending. -/
theorem C1_guard_drops_events_only_witness :
    fsEventStep "pluginB"
        (⟨true, ["pluginB"], ["pluginA"], [TraceEvt.start "pluginA"]⟩ : LoopState) =
      ⟨true, ["pluginB"], ["pluginA"], [TraceEvt.start "pluginA"]⟩ ∧
    (timerFireStep "pluginB"
        (⟨true, ["pluginB"], ["pluginA"], [TraceEvt.start "pluginA"]⟩ : LoopState)).inFlight =
      "pluginB" :: ["pluginA"] ∧
    (timerFireStep "pluginB"
        (⟨true, ["pluginB"], ["pluginA"], [TraceEvt.start "pluginA"]⟩ : LoopState)).trace =
      [TraceEvt.start "pluginA"] ++ [TraceEvt.start "pluginB"] :=
  C1_guard_drops_events_only
    ⟨true, ["pluginB"], ["pluginA"], [TraceEvt.start "pluginA"]⟩ "pluginB" rfl (by decide)

theorem hasMixed_false_of_all_fresh {st : DirState}
    (h : ∀ p ∈ st, p.2 = FileVer.fresh) : hasMixedVersions st = false := by
  unfold hasMixedVersions
  have hs : st.any (fun p => decide (p.2 = FileVer.stale)) = false := by
    rw [List.any_eq_false]
    intro p hp
    simp [h p hp]
  rw [hs, Bool.false_and]

theorem hasMixed_false_of_all_stale {st : DirState}
    (h : ∀ p ∈ st, p.2 = FileVer.stale) : hasMixedVersions st = false := by
  unfold hasMixedVersions
  have hf : st.any (fun p => decide (p.2 = FileVer.fresh)) = false := by
    rw [List.any_eq_false]
    intro p hp
    simp [h p hp]
  rw [hf, Bool.and_false]

theorem scanl_renames_fresh (files : List String) :
    ∀ st : DirState, (∀ p ∈ st, p.2 = FileVer.fresh) →
      ∀ st' ∈ (files.map MoveOp.renameIntoDest).scanl applyMoveOp st,
        ∀ p ∈ st', p.2 = FileVer.fresh := by
  induction files with
  | nil =>
    intro st hst st' hmem
    rw [List.map_nil, List.scanl_nil, List.mem_singleton] at hmem
    subst hmem
    exact hst
  | cons f fs ih =>
    intro st hst st' hmem
    rw [List.map_cons, List.scanl_cons] at hmem
    rcases List.mem_cons.mp hmem with rfl | hmem
    · exact hst
    · refine ih (applyMoveOp st (MoveOp.renameIntoDest f)) ?_ st' hmem
      intro p hp
      simp only [applyMoveOp] at hp
      rcases List.mem_append.mp hp with hp | hp
      · exact hst p hp
      · rw [List.mem_singleton] at hp
        subst hp
        rfl

/-- Claim C2: promotion of built output never exposes a directory state
mixing files of the new build with stale files of a previous build — both
for the per-file move loop of `rebuildPlugin` (which first removes the
destination recursively) and for the whole-directory rename of the
`moveBuiltResources` script. -/
theorem C2_promotion_atomic (oldFiles newFiles : List String) :
    (∀ st ∈ observedStates oldFiles (rebuildPluginMoveOps newFiles),
        hasMixedVersions st = false) ∧
    (∀ st ∈ observedStates oldFiles (moveBuiltResourcesOps newFiles),
        hasMixedVersions st = false) := by
  have hstale : ∀ p ∈ oldFiles.map (fun n => (n, FileVer.stale)), p.2 = FileVer.stale := by
    intro p hp
    rcases List.mem_map.mp hp with ⟨n, _, rfl⟩
    rfl
  constructor
  · intro st hmem
    unfold observedStates rebuildPluginMoveOps at hmem
    rw [List.scanl_cons] at hmem
    rcases List.mem_cons.mp hmem with rfl | hmem
    · exact hasMixed_false_of_all_stale hstale
    · rw [List.scanl_cons] at hmem
      simp only [applyMoveOp] at hmem
      rcases List.mem_cons.mp hmem with rfl | hmem
      · rfl
      · exact hasMixed_false_of_all_fresh
          (scanl_renames_fresh newFiles [] (by intro p hp; cases hp) st hmem)
  · intro st hmem
    unfold observedStates moveBuiltResourcesOps at hmem
    rw [List.scanl_cons, List.scanl_cons, List.scanl_cons, List.scanl_nil] at hmem
    simp only [applyMoveOp] at hmem
    rcases List.mem_cons.mp hmem with rfl | hmem
    · exact hasMixed_false_of_all_stale hstale
    · rcases List.mem_cons.mp hmem with rfl | hmem
      · rfl
      · rcases List.mem_cons.mp hmem with rfl | hmem
        · rfl
        · have hst : st = List.map (fun n => (n, FileVer.fresh)) newFiles :=
            List.mem_singleton.mp hmem
          subst hst
          refine hasMixed_false_of_all_fresh ?_
          intro p hp
          rcases List.mem_map.mp hp with ⟨n, _, rfl⟩
          rfl

/-- Witness for C2: the initial (all-stale) and final (all-fresh) observable
states of a concrete promotion are unmixed. -/
theorem C2_promotion_atomic_witness :
    hasMixedVersions [("old", FileVer.stale)] = false ∧
    hasMixedVersions [("new", FileVer.fresh)] = false :=
  ⟨(C2_promotion_atomic ["old"] ["new"]).1 [("old", FileVer.stale)] (by decide),
   (C2_promotion_atomic ["old"] ["new"]).2 [("new", FileVer.fresh)] (by decide)⟩

/-- Claim C3, evaluated at the failing input: when `list()` returns the
empty resource list the orchestrator takes the start path (it does not call
restart) — but the `CoreManager` class declares no `startResource` method,
so the start path's method call cannot succeed as the claim describes. -/
theorem C3_start_path_method_missing :
    getResources (HttpOutcome.resp ⟨true, [], 0⟩) = [] ∧
    restartResourceCall (HttpOutcome.resp ⟨true, [], 0⟩) "foo" =
      LifecycleAttempt.tryStart "foo" ∧
    coreManagerMethods.contains orchestratorStartMethod = false := by decide

/-- Claim C10: any failure of the `GET /resources` request (non-2xx
response, no response, or request-construction error) makes `getResources`
return `[]` rather than raise; hence `resourceExists` is false for every
name and the orchestrator takes the start path for a rebuilt resource,
regardless of what is actually running on the host. -/
theorem C10_list_failure_start_path (o : HttpOutcome ResourceListResponse)
    (h : isFailureOutcome o = true) :
    getResources o = [] ∧
    ∀ name, resourceExists o name = false ∧
      restartResourceCall o name = LifecycleAttempt.tryStart name := by
  cases o with
  | resp r => simp [isFailureOutcome] at h
  | non2xx st b => exact ⟨rfl, fun name => ⟨rfl, rfl⟩⟩
  | noResponse => exact ⟨rfl, fun name => ⟨rfl, rfl⟩⟩
  | setupError m => exact ⟨rfl, fun name => ⟨rfl, rfl⟩⟩

/-- Witness for C10 at the no-response outcome and resource `foo`. -/
theorem C10_list_failure_start_path_witness :
    getResources (HttpOutcome.noResponse : HttpOutcome ResourceListResponse) = [] ∧
    resourceExists HttpOutcome.noResponse "foo" = false ∧
    restartResourceCall HttpOutcome.noResponse "foo" = LifecycleAttempt.tryStart "foo" :=
  ⟨(C10_list_failure_start_path HttpOutcome.noResponse rfl).1,
   ((C10_list_failure_start_path HttpOutcome.noResponse rfl).2 "foo").1,
   ((C10_list_failure_start_path HttpOutcome.noResponse rfl).2 "foo").2⟩

theorem missingDir_ne (d : String) :
    ("Missing directory: " ++ d) ≠ "Missing plugin.json manifest" := by
  intro h
  have h2 : ("Missing directory: " ++ d).data[8]? =
      ("Missing plugin.json manifest" : String).data[8]? := by rw [h]
  have h3 : ("Missing directory: " ++ d).data =
      ("Missing directory: " : String).data ++ d.data := rfl
  rw [h3, List.getElem?_append_left (by decide)] at h2
  exact absurd h2 (by decide)

/-- Claim C5: a module directory lacking a manifest file yields exactly one
missing-manifest error, manifest schema validation is not invoked for it,
and every further reported error is a missing-directory error over the
fixed set of required subdirectories. -/
theorem C5_missing_manifest (p : PluginFsView) (h : p.hasManifest = false) :
    (validatePluginStructure p).count "Missing plugin.json manifest" = 1 ∧
    manifestValidationInvoked p = false ∧
    ∀ e ∈ validatePluginStructure p, e ≠ "Missing plugin.json manifest" →
      ∃ d, d ∈ requiredDirs ∧ p.presentDirs.contains d = false ∧
        e = "Missing directory: " ++ d := by
  have hT : validatePluginStructureT p =
      ("Missing plugin.json manifest" ::
        (requiredDirs.filter (fun d => ¬ p.presentDirs.contains d)).map
          (fun d => "Missing directory: " ++ d),
       false) := by
    unfold validatePluginStructureT
    rw [if_pos (by rw [h]; exact Bool.false_ne_true)]
    rfl
  have hV : validatePluginStructure p =
      "Missing plugin.json manifest" ::
        (requiredDirs.filter (fun d => ¬ p.presentDirs.contains d)).map
          (fun d => "Missing directory: " ++ d) := by
    unfold validatePluginStructure
    rw [hT]
  refine ⟨?_, ?_, ?_⟩
  · rw [hV, List.count_cons_self, List.count_eq_zero.mpr, Nat.zero_add]
    intro hmem
    rcases List.mem_map.mp hmem with ⟨d, _, hd⟩
    exact missingDir_ne d hd
  · unfold manifestValidationInvoked
    rw [hT]
  · intro e hmem hne
    rw [hV] at hmem
    rcases List.mem_cons.mp hmem with rfl | hmem
    · exact absurd rfl hne
    · rcases List.mem_map.mp hmem with ⟨d, hd, rfl⟩
      rcases List.mem_filter.mp hd with ⟨hd₁, hd₂⟩
      refine ⟨d, hd₁, ?_, rfl⟩
      simpa using hd₂

/-- Witness for C5 at a concrete module missing its manifest and three of
the required directories. -/
theorem C5_missing_manifest_witness :
    (validatePluginStructure ⟨false, none, ["client", "server"]⟩).count
        "Missing plugin.json manifest" = 1 ∧
    manifestValidationInvoked ⟨false, none, ["client", "server"]⟩ = false ∧
    ∀ e ∈ validatePluginStructure ⟨false, none, ["client", "server"]⟩,
      e ≠ "Missing plugin.json manifest" →
      ∃ d, d ∈ requiredDirs ∧
        (["client", "server"] : List String).contains d = false ∧
        e = "Missing directory: " ++ d :=
  C5_missing_manifest ⟨false, none, ["client", "server"]⟩ rfl

theorem errLines_foldl (errs : List String) :
    ∀ start : String,
      errs.foldl (fun m e => m ++ "  - " ++ e ++ "\n") start = start ++ errLines errs := by
  induction errs with
  | nil => intro start; simp [errLines, String.append_empty]
  | cons e es ih =>
    intro start
    rw [List.foldl_cons, ih]
    simp [errLines, String.append_assoc]

theorem pluginBlocks_foldl (L : List (String × List String)) :
    ∀ start : String,
      L.foldl
          (fun msg pe =>
            pe.2.foldl (fun m e => m ++ "  - " ++ e ++ "\n") (msg ++ "- " ++ pe.1 ++ ":\n"))
          start
        = start ++ pluginBlocks L := by
  induction L with
  | nil => intro start; simp [pluginBlocks, String.append_empty]
  | cons pe rest ih =>
    intro start
    rw [List.foldl_cons, errLines_foldl, ih]
    simp [pluginBlocks, String.append_assoc]

theorem validationFailureMessage_eq (L : List (String × List String)) :
    validationFailureMessage L = "Plugin validation failed:\n" ++ pluginBlocks L :=
  pluginBlocks_foldl L _

theorem errLines_contains {errs : List String} {e : String} (h : e ∈ errs) :
    strContains (errLines errs) ("  - " ++ e ++ "\n") := by
  induction errs with
  | nil => cases h
  | cons e' es ih =>
    rcases List.mem_cons.mp h with rfl | h
    · exact strContains_append_right _ (strContains_refl _)
    · exact strContains_append_left ("  - " ++ e' ++ "\n") (ih h)

theorem pluginBlocks_contains {L : List (String × List String)}
    {pe : String × List String} (h : pe ∈ L) :
    strContains (pluginBlocks L) ("- " ++ pe.1 ++ ":\n") ∧
    ∀ e ∈ pe.2, strContains (pluginBlocks L) ("  - " ++ e ++ "\n") := by
  induction L with
  | nil => cases h
  | cons pe' rest ih =>
    rcases List.mem_cons.mp h with rfl | h
    · constructor
      · exact strContains_append_right _ (strContains_append_right _ (strContains_refl _))
      · intro e he
        exact strContains_append_right _
          (strContains_append_left ("- " ++ pe.1 ++ ":\n") (errLines_contains he))
    · obtain ⟨h₁, h₂⟩ := ih h
      exact ⟨strContains_append_left _ h₁,
        fun e he => strContains_append_left _ (h₂ e he)⟩

/-- Claim C6: `validateAllPlugins` checks every discovered module, returns
normally exactly when every module's error list is empty, and otherwise
fails with one structured error whose message names every invalid module
together with each of that module's violations. -/
theorem C6_validateAllPlugins (plugins : List (String × PluginFsView)) :
    (validateAllPlugins plugins = Except.ok () ↔
      ∀ pr ∈ plugins, validatePluginStructure pr.2 = []) ∧
    (∀ msg, validateAllPlugins plugins = Except.error msg →
      ∀ pr ∈ plugins, validatePluginStructure pr.2 ≠ [] →
        strContains msg ("- " ++ pr.1 ++ ":\n") ∧
        ∀ e ∈ validatePluginStructure pr.2, strContains msg ("  - " ++ e ++ "\n")) := by
  have hrun : validateAllPlugins plugins =
      if (collectPluginErrors plugins).length > 0 then
        Except.error (validationFailureMessage (collectPluginErrors plugins))
      else Except.ok () := rfl
  constructor
  · constructor
    · intro hok
      rw [hrun] at hok
      by_cases hlen : (collectPluginErrors plugins).length > 0
      · rw [if_pos hlen] at hok; cases hok
      · intro pr hpr
        have hnil : collectPluginErrors plugins = [] :=
          List.length_eq_zero.mp (Nat.eq_zero_of_not_pos hlen)
        have h2 : (if (validatePluginStructure pr.2).length > 0
            then some (pr.1, validatePluginStructure pr.2) else none) = none :=
          List.filterMap_eq_nil_iff.mp hnil pr hpr
        by_cases he : (validatePluginStructure pr.2).length > 0
        · rw [if_pos he] at h2; cases h2
        · exact List.length_eq_zero.mp (Nat.eq_zero_of_not_pos he)
    · intro hall
      have hnil : collectPluginErrors plugins = [] := by
        apply List.filterMap_eq_nil_iff.mpr
        intro pr hpr
        show (if (validatePluginStructure pr.2).length > 0
            then some (pr.1, validatePluginStructure pr.2) else none) = none
        rw [hall pr hpr]
        rfl
      rw [hrun, hnil]
      rfl
  · intro msg hmsg pr hpr hne
    rw [hrun] at hmsg
    by_cases hlen : (collectPluginErrors plugins).length > 0
    · rw [if_pos hlen] at hmsg
      have hm : msg = validationFailureMessage (collectPluginErrors plugins) :=
        (Except.error.injEq _ _).mp hmsg.symm
      have hmem : (pr.1, validatePluginStructure pr.2) ∈ collectPluginErrors plugins := by
        apply List.mem_filterMap.mpr
        refine ⟨pr, hpr, ?_⟩
        show (if (validatePluginStructure pr.2).length > 0
            then some (pr.1, validatePluginStructure pr.2) else none) =
          some (pr.1, validatePluginStructure pr.2)
        rw [if_pos (List.length_pos.mpr hne)]
      obtain ⟨hh, he⟩ := pluginBlocks_contains hmem
      rw [hm, validationFailureMessage_eq]
      exact ⟨strContains_append_left _ hh,
        fun e hee => strContains_append_left _ (he e hee)⟩
    · rw [if_neg hlen] at hmsg
      cases hmsg

/-- Witness for C6 at one concrete invalid module: the thrown message names
the module and its single violation. -/
theorem C6_validateAllPlugins_witness :
    strContains "Plugin validation failed:\n- ns/a:\n  - Missing plugin.json manifest\n"
        ("- " ++ ("ns/a", (⟨false, none,
            ["client", "server", "translations", "html", "types"]⟩ : PluginFsView)).1 ++ ":\n") ∧
    ∀ e ∈ validatePluginStructure
        (⟨false, none, ["client", "server", "translations", "html", "types"]⟩ : PluginFsView),
      strContains "Plugin validation failed:\n- ns/a:\n  - Missing plugin.json manifest\n"
        ("  - " ++ e ++ "\n") :=
  (C6_validateAllPlugins
      [("ns/a", ⟨false, none, ["client", "server", "translations", "html", "types"]⟩)]).2
    "Plugin validation failed:\n- ns/a:\n  - Missing plugin.json manifest\n" rfl
    ("ns/a", ⟨false, none, ["client", "server", "translations", "html", "types"]⟩)
    (by decide) (by decide)

/-- Claim C7: a manifest whose contents violate `k` independent schema
constraints (the engine, configured with `allErrors`, reports the list of
all `k` rendered messages) fails validation with a single error carrying
`errorsText` of the whole list — every violation message occurs in the
reported error, not only the first. -/
theorem C7_validateManifest_all_errors (violations : List String)
    (h : violations ≠ []) :
    validateManifest violations =
      Except.error ("Invalid plugin manifest:\n" ++ errorsText violations) ∧
    ∀ m ∈ violations,
      strContains ("Invalid plugin manifest:\n" ++ errorsText violations) m := by
  constructor
  · unfold validateManifest
    rw [if_neg (fun hc => h (List.isEmpty_iff.mp hc))]
  · intro m hm
    exact strContains_append_left _ (strContains_joinSep "\n" hm)

/-- Witness for C7 with two concrete violations. -/
theorem C7_validateManifest_all_errors_witness :
    validateManifest ["missing required property name", "version must be a string"] =
      Except.error ("Invalid plugin manifest:\n" ++
        errorsText ["missing required property name", "version must be a string"]) ∧
    ∀ m ∈ ["missing required property name", "version must be a string"],
      strContains ("Invalid plugin manifest:\n" ++
        errorsText ["missing required property name", "version must be a string"]) m :=
  C7_validateManifest_all_errors
    ["missing required property name", "version must be a string"] (by decide)

/-- Claim C8: entry-point resolution agrees with the specified per-side
rule — a declared entry list takes precedence over the default (its entries,
prefixed `./`, become the entry points; a declared empty list yields no
bundle), an undeclared side falls back to `server/index.ts` or
`client/index.ts` exactly when that file exists, and with neither the side
is skipped without error. -/
theorem C8_entry_resolution (exportsDef : Option ExportsView) (fs : BuildFsView) :
    resolveEnvironments exportsDef fs = specResolveEnvironments exportsDef fs := by
  obtain ⟨si, ci⟩ := fs
  cases exportsDef with
  | none => cases si <;> cases ci <;> rfl
  | some e =>
    obtain ⟨c, s⟩ := e
    rcases s with _ | ⟨_ | ⟨y, ys⟩⟩ <;>
      rcases c with _ | ⟨_ | ⟨x, xs⟩⟩ <;>
      cases si <;> cases ci <;>
      simp [resolveEnvironments, specResolveEnvironments, specEntryPoints]

theorem formatArrayBlock_contains_header (name : String) {xs : List String}
    (h : xs ≠ []) :
    strContains (formatArrayBlock name xs) (name ++ " \x7b") := by
  unfold formatArrayBlock
  rw [if_neg (fun hc => h (List.length_eq_zero.mp hc))]
  refine strContains_append_right _ (strContains_append_right _ ?_)
  have h0 : (" \x7b\n" : String) = " \x7b" ++ "\n" := by decide
  have h1 : name ++ " \x7b\n" = (name ++ " \x7b") ++ "\n" := by
    rw [h0, ← String.append_assoc]
  rw [h1]
  exact strContains_append_right _ (strContains_refl _)

theorem formatArrayBlock_contains_item (name : String) {xs : List String}
    {it : String} (hmem : it ∈ xs) (hne : it ≠ "") :
    strContains (formatArrayBlock name xs) ("\x27" ++ it ++ "\x27") := by
  unfold formatArrayBlock
  rw [if_neg (fun hc => List.ne_nil_of_mem hmem (List.length_eq_zero.mp hc))]
  refine strContains_append_right _ (strContains_append_left _ ?_)
  have hmm : ("    \x27" ++ it ++ "\x27") ∈
      xs.map (fun v => if v ≠ "" then "    \x27" ++ v ++ "\x27" else "") := by
    refine List.mem_map.mpr ⟨it, hmem, ?_⟩
    rw [if_pos]
    simpa using hne
  refine strContains_trans (strContains_joinSep ",\n" hmm) ?_
  have h2 : "    \x27" ++ it ++ "\x27" = "    " ++ ("\x27" ++ it ++ "\x27") := by
    have h3 : ("    \x27" : String) = "    " ++ "\x27" := by decide
    rw [h3]
    simp only [String.append_assoc]
  rw [h2]
  exact strContains_append_left "    " (strContains_refl _)

theorem formatKeyValuePairs_contains {object : List (String × String)}
    {kv : String × String} (hmem : kv ∈ object) (hne : kv.2 ≠ "") :
    strContains (formatKeyValuePairs object) (kv.1 ++ " \x27" ++ kv.2 ++ "\x27") := by
  unfold formatKeyValuePairs
  refine strContains_append_right "\n" ?_
  refine strContains_joinSep "\n" ?_
  refine List.mem_map.mpr ⟨kv, ?_, rfl⟩
  rw [List.mem_filter]
  exact ⟨hmem, by simpa using hne⟩

/-- Claim C9: the generated host-manifest text emits each truthy top-level
metadata pair as `key 'value'`, emits each non-empty array-valued section as
a `name { 'item', ... }` block containing every truthy item quoted, emits
nothing at all for an empty array, and the file contents after a build equal
the freshly generated output regardless of any prior contents (regenerated,
not merged). -/
theorem C9_createFxmanifest (a : FxmanifestArgs) :
    (∀ kv ∈ a.fxmanifestPairs, kv.2 ≠ "" →
        strContains (createFxmanifestOutput a) (kv.1 ++ " \x27" ++ kv.2 ++ "\x27")) ∧
    (a.server_scripts ≠ [] →
        strContains (createFxmanifestOutput a) "server_scripts \x7b" ∧
        ∀ it ∈ a.server_scripts, it ≠ "" →
          strContains (createFxmanifestOutput a) ("\x27" ++ it ++ "\x27")) ∧
    (a.client_scripts ≠ [] →
        strContains (createFxmanifestOutput a) "client_scripts \x7b") ∧
    (a.shared_scripts ≠ [] →
        strContains (createFxmanifestOutput a) "shared_scripts \x7b") ∧
    (a.files ≠ [] →
        strContains (createFxmanifestOutput a) "files \x7b") ∧
    (a.dependencies ≠ [] →
        strContains (createFxmanifestOutput a) "dependencies \x7b") ∧
    (∀ name : String, formatArrayBlock name [] = "") ∧
    (∀ prior, fileAfterBuild prior a = createFxmanifestOutput a) := by
  refine ⟨?_, ?_, ?_, ?_, ?_, ?_, fun name => rfl, fun prior => rfl⟩
  · intro kv hkv hne
    unfold createFxmanifestOutput
    exact strContains_append_right _ (strContains_append_right _
      (strContains_append_right _ (strContains_append_right _
        (strContains_append_right _ (strContains_append_right _
          (formatKeyValuePairs_contains hkv hne))))))
  · intro hne
    unfold createFxmanifestOutput
    rw [if_pos (List.length_pos.mpr hne)]
    constructor
    · exact strContains_append_right _ (strContains_append_right _
        (strContains_append_right _ (strContains_append_left _
          (formatArrayBlock_contains_header "server_scripts" hne))))
    · intro it hit hitne
      exact strContains_append_right _ (strContains_append_right _
        (strContains_append_right _ (strContains_append_left _
          (formatArrayBlock_contains_item "server_scripts" hit hitne))))
  · intro hne
    unfold createFxmanifestOutput
    rw [if_pos (List.length_pos.mpr hne)]
    exact strContains_append_right _ (strContains_append_right _
      (strContains_append_right _ (strContains_append_right _
        (strContains_append_left _
          (formatArrayBlock_contains_header "client_scripts" hne)))))
  · intro hne
    unfold createFxmanifestOutput
    rw [if_pos (List.length_pos.mpr hne)]
    exact strContains_append_right _ (strContains_append_right _
      (strContains_append_right _ (strContains_append_right _
        (strContains_append_right _ (strContains_append_left _
          (formatArrayBlock_contains_header "shared_scripts" hne))))))
  · intro hne
    unfold createFxmanifestOutput
    rw [if_pos (List.length_pos.mpr hne)]
    exact strContains_append_right _ (strContains_append_left _
      (formatArrayBlock_contains_header "files" hne))
  · intro hne
    unfold createFxmanifestOutput
    rw [if_pos (List.length_pos.mpr hne)]
    exact strContains_append_left _
      (formatArrayBlock_contains_header "dependencies" hne)

/-- Witness for C9 at a concrete manifest with one metadata pair and one
server script. -/
theorem C9_createFxmanifest_witness :
    strContains
      (createFxmanifestOutput
        (⟨[("name", "foo")], [], [], ["server.js"], none, [], []⟩ : FxmanifestArgs))
      ("name" ++ " \x27" ++ "foo" ++ "\x27") ∧
    strContains
      (createFxmanifestOutput
        (⟨[("name", "foo")], [], [], ["server.js"], none, [], []⟩ : FxmanifestArgs))
      "server_scripts \x7b" ∧
    strContains
      (createFxmanifestOutput
        (⟨[("name", "foo")], [], [], ["server.js"], none, [], []⟩ : FxmanifestArgs))
      ("\x27" ++ "server.js" ++ "\x27") :=
  ⟨(C9_createFxmanifest
      (⟨[("name", "foo")], [], [], ["server.js"], none, [], []⟩ : FxmanifestArgs)).1
      ("name", "foo") (by decide) (by decide),
   ((C9_createFxmanifest
      (⟨[("name", "foo")], [], [], ["server.js"], none, [], []⟩ : FxmanifestArgs)).2.1
      (by decide)).1,
   ((C9_createFxmanifest
      (⟨[("name", "foo")], [], [], ["server.js"], none, [], []⟩ : FxmanifestArgs)).2.1
      (by decide)).2 "server.js" (by decide) (by decide)⟩

end Twore
